import Mathlib

/-!
Verification of the transformation logic of `1.make_shinjuku_3d_geojson.py`,
a batch converter that turns 2D indoor-map shapefiles into 3D GeoJSON files.

Shallow embedding conventions:
* strings coming from the filesystem (filenames, paths) are lists of characters;
* Python floats are modelled as exact rationals; every constant of the script
  is an exact decimal, so nothing is lost in this translation;
* shapely geometries are a tagged variant type mirroring the geom_type
  dispatch of the script; coordinate tuples are lists of rationals;
* Python exceptions are modelled with Except String;
* file input, CRS reprojection and JSON serialisation are delegated library
  calls outside the script logic; they appear as an oracle argument
  (a function from a path to the parsed, reprojected feature list).
-/

/-- Filenames and paths, as sequences of characters. -/
abbrev FName := List Char

/-- ASCII case folding, modelling the effect of the re.I flag on the
ASCII-only tokens used in PATTERNS. -/
def lowerStr (s : FName) : FName := s.map Char.toLower

/-- The needle is a prefix of the hay. -/
def isPre : FName → FName → Bool
  | [], _ => true
  | _ :: _, [] => false
  | a :: n, b :: h => a == b && isPre n h

/-- The needle occurs as a contiguous substring of the hay, anywhere
(re.search with a literal pattern). -/
def containsSub (hay needle : FName) : Bool :=
  isPre needle hay ||
    match hay with
    | [] => false
    | _ :: t => containsSub t needle

/-- A compiled pattern of the script has the shape tok[_\.] with re.I:
it matches a filename iff the lowercased filename contains the token
followed by an underscore or followed by a dot. -/
def patMatches (tok : FName) (filename : FName) : Bool :=
  containsSub (lowerStr filename) (tok ++ ['_']) ||
    containsSub (lowerStr filename) (tok ++ ['.'])

/-- Source lines 54-66: the ordered table of (pattern token, floor label)
pairs. Order is significant: first match wins. -/
def PATTERNS : List (FName × String) :=
  [("_b3".data, "B3"),
   ("_b2".data, "B2"),
   ("_b1".data, "B1"),
   ("_0".data, "0F"),
   ("_1".data, "1F"),
   ("_2out".data, "2out"),
   ("_3out".data, "3out"),
   ("_4out".data, "4out"),
   ("_2".data, "2F"),
   ("_3".data, "3F"),
   ("_4".data, "4F")]

/-- The loop body of infer_floor_label, recursing over the pattern table. -/
def inferAux (filename : FName) : List (FName × String) → String
  | [] => "0F"
  | (pat, label) :: rest =>
      if patMatches pat filename then label else inferAux filename rest

/-- Source lines 68-73: infer the floor label from the filename,
defaulting to "0F" when no pattern matches. -/
def infer_floor_label (filename : FName) : String :=
  inferAux filename PATTERNS

/-- Source line 21: BASE_Z = 40.6 (reference elevation in metres). -/
def BASE_Z : ℚ := 406 / 10

/-- Source lines 38-47: relative offset of each floor label in metres
(the active, ten-times-exaggerated table). Python dict literals preserve
insertion order, so the table is an association list. -/
def FLOOR_OFFSETS : List (String × ℚ) :=
  [("B3", -63),
   ("B2", -42),
   ("B1", -21),
   ("0F", 0),
   ("1F", 24),
   ("2F", 48),
   ("2out", 48),
   ("3F", 72),
   ("3out", 72),
   ("4F", 96),
   ("4out", 96)]

/-- Source lines 103-106 of process_shp: the inferred label, coerced to
"0F" when it is not a key of FLOOR_OFFSETS (with a warning). -/
def resolved_label (f : FName) : String :=
  if (FLOOR_OFFSETS.lookup (infer_floor_label f)).isSome then
    infer_floor_label f
  else "0F"

/-- Source line 107: z_abs = BASE_Z + FLOOR_OFFSETS[label]. The dict
subscript is modelled with lookup; a missing key (KeyError) is none. -/
def z_abs (f : FName) : Option ℚ :=
  (FLOOR_OFFSETS.lookup (resolved_label f)).map (fun off => BASE_Z + off)

/-- Refinement comparison definition, written from the words of the spec:
the label of the first pattern in table order whose regular expression
matches anywhere in the filename, and "0F" when no pattern matches. -/
def specFirstMatch (f : FName) : String :=
  ((PATTERNS.find? (fun p => patMatches p.1 f)).map Prod.snd).getD "0F"

theorem inferAux_eq_find (f : FName) :
    ∀ ps : List (FName × String),
      inferAux f ps = ((ps.find? (fun p => patMatches p.1 f)).map Prod.snd).getD "0F"
  | [] => rfl
  | (pat, label) :: rest => by
      by_cases h : patMatches pat f
      · simp [inferAux, List.find?, h]
      · simp only [inferAux, List.find?, h, if_neg, Bool.false_eq_true, if_false]
        simpa using inferAux_eq_find f rest

theorem inferAux_mem (f : FName) :
    ∀ ps : List (FName × String),
      inferAux f ps = "0F" ∨ inferAux f ps ∈ ps.map Prod.snd
  | [] => Or.inl rfl
  | (pat, label) :: rest => by
      by_cases h : patMatches pat f
      · simp [inferAux, h]
      · rcases inferAux_mem f rest with h0 | hmem
        · left; simpa [inferAux, h] using h0
        · right; simp [inferAux, h, hmem]

theorem inferAux_nomatch (f : FName) :
    ∀ ps : List (FName × String),
      (∀ p ∈ ps, patMatches p.1 f = false) → inferAux f ps = "0F"
  | [] => fun _ => rfl
  | (pat, label) :: rest => fun h => by
      have hp : patMatches pat f = false := h (pat, label) (by simp)
      have := inferAux_nomatch f rest (fun p hp => h p (by simp [hp]))
      simp [inferAux, hp, this]

theorem lookup_isSome_of_label (l : String)
    (hl : l = "0F" ∨ l ∈ PATTERNS.map Prod.snd) :
    (FLOOR_OFFSETS.lookup l).isSome = true := by
  have hl2 : l ∈ ["0F", "B3", "B2", "B1", "0F", "1F", "2out", "3out", "4out", "2F", "3F", "4F"] := by
    simpa [PATTERNS] using hl
  fin_cases hl2 <;> rfl

/-- Claim C10: the label inferred from any filename is always a key of
FLOOR_OFFSETS, so the warning-and-coerce branch of process_shp never
changes the label: it is unreachable with the tables as defined. -/
theorem infer_floor_label_total (f : FName) :
    (FLOOR_OFFSETS.lookup (infer_floor_label f)).isSome = true ∧
      resolved_label f = infer_floor_label f := by
  have hs := lookup_isSome_of_label (infer_floor_label f)
    (by simpa [infer_floor_label] using inferAux_mem f PATTERNS)
  exact ⟨hs, by simp [resolved_label, hs]⟩

/-- Claim C2: infer_floor_label returns the label of the first pattern in
table order that matches anywhere in the filename ("0F" when none match),
and whenever a specialised out token matches, the generic digit label is
not returned. -/
theorem infer_floor_label_first_match (f : FName) :
    infer_floor_label f = specFirstMatch f ∧
      (patMatches "_2out".data f = true → infer_floor_label f ≠ "2F") ∧
      (patMatches "_3out".data f = true → infer_floor_label f ≠ "3F") ∧
      (patMatches "_4out".data f = true → infer_floor_label f ≠ "4F") := by
  refine ⟨inferAux_eq_find f PATTERNS, ?_, ?_, ?_⟩ <;>
    · intro h
      simp only [infer_floor_label, PATTERNS, inferAux, h, if_true]
      split_ifs <;> decide

/-- Concrete instantiation of claim C2 on a filename matching all three
specialised out tokens. -/
theorem infer_floor_label_first_match_spot :
    infer_floor_label "x_2out_y_3out_z_4out_w.shp".data ≠ "2F" ∧
      infer_floor_label "x_2out_y_3out_z_4out_w.shp".data ≠ "3F" ∧
      infer_floor_label "x_2out_y_3out_z_4out_w.shp".data ≠ "4F" :=
  ⟨(infer_floor_label_first_match _).2.1 (by decide),
   (infer_floor_label_first_match _).2.2.1 (by decide),
   (infer_floor_label_first_match _).2.2.2 (by decide)⟩

/-- Claim C3: for every entry of the offset table, a file resolving to that
label gets absolute elevation exactly BASE_Z plus the offset of the entry;
a file matching no pattern is treated as floor "0F" and gets exactly
BASE_Z plus zero. -/
theorem z_abs_exact :
    (∀ (pr : String × ℚ) (f : FName), pr ∈ FLOOR_OFFSETS →
        infer_floor_label f = pr.1 → z_abs f = some (BASE_Z + pr.2)) ∧
      (∀ f : FName, (∀ p ∈ PATTERNS, patMatches p.1 f = false) →
        z_abs f = some (BASE_Z + 0)) := by
  constructor
  · intro pr f hmem hf
    fin_cases hmem <;>
      (unfold z_abs resolved_label; rw [show infer_floor_label f = _ from hf]; rfl)
  · intro f h
    have h0 : infer_floor_label f = "0F" :=
      inferAux_nomatch f PATTERNS h
    unfold z_abs resolved_label; rw [h0]; rfl

/-- Concrete instantiation of claim C3: a basement-one file and a file
matching no pattern. -/
theorem z_abs_exact_spot :
    z_abs "ShinjukuTerminal_B1_x.shp".data = some (BASE_Z + -21) ∧
      z_abs "nomatchfile.shp".data = some (BASE_Z + 0) :=
  ⟨z_abs_exact.1 ("B1", -21) _ (by decide) (by decide),
   z_abs_exact.2 _ (by decide)⟩

/-! ## Geometry model

A shapely geometry, as dispatched on by geom_type in add_z_to_geom
(source lines 75-100). Coordinate tuples are lists of rationals: a 2D
vertex is a two-element list, a vertex carrying a third component is a
three-element list. A polygon is an exterior ring plus a list of interior
rings; a multipolygon member is such a pair. An unrecognised geom_type
(for example LinearRing) is kept as a tagged leaf, mirroring the final
fallthrough of the source. GeomSeq is the member list of a
GeometryCollection; it is a separate inductive so that all functions
below are structural. -/

abbrev Coord := List ℚ

mutual
inductive Geom where
  | point (c : Coord)
  | multiPoint (ps : List Coord)
  | lineString (cs : List Coord)
  | multiLineString (ls : List (List Coord))
  | polygon (ext : List Coord) (holes : List (List Coord))
  | multiPolygon (ps : List (List Coord × List (List Coord)))
  | geometryCollection (gs : GeomSeq)
  | unknownKind (tag : String)
inductive GeomSeq where
  | nil
  | cons (g : Geom) (t : GeomSeq)
end

/-- The geom_type string of a geometry, as read by the source dispatch. -/
def Geom.geom_type : Geom → String
  | .point _ => "Point"
  | .multiPoint _ => "MultiPoint"
  | .lineString _ => "LineString"
  | .multiLineString _ => "MultiLineString"
  | .polygon _ _ => "Polygon"
  | .multiPolygon _ => "MultiPolygon"
  | .geometryCollection _ => "GeometryCollection"
  | .unknownKind tag => tag

mutual
/-- The shapely is_empty test: a point with no coordinates, a line with no
vertices, a polygon with no exterior ring, and a multi geometry or
collection all of whose members are empty, are empty. -/
def Geom.is_empty : Geom → Bool
  | .point c => c.isEmpty
  | .multiPoint ps => ps.all List.isEmpty
  | .lineString cs => cs.isEmpty
  | .multiLineString ls => ls.all List.isEmpty
  | .polygon ext _ => ext.isEmpty
  | .multiPolygon ps => ps.all (fun pr => pr.1.isEmpty)
  | .geometryCollection gs => GeomSeq.all_empty gs
  | .unknownKind _ => false
def GeomSeq.all_empty : GeomSeq → Bool
  | .nil => true
  | .cons g t => Geom.is_empty g && GeomSeq.all_empty t
end

/-- Python tuple unpacking for x, y in a coordinate sequence: succeeds on
exactly two components, raises ValueError otherwise. -/
def unpack2 (c : Coord) : Except String (ℚ × ℚ) :=
  match c with
  | [x, y] => .ok (x, y)
  | _ => .error "ValueError: cannot unpack coordinate into (x, y)"

/-- The p.x and p.y accessors of a shapely point: the first two components
of the coordinate tuple, whatever its length; they raise on an empty point. -/
def ptXY (c : Coord) : Except String (ℚ × ℚ) :=
  match c with
  | x :: y :: _ => .ok (x, y)
  | _ => .error "point has no x or y"

/-- The list comprehension [(x, y, z) for x, y in coords], evaluated left
to right, stopping at the first unpacking failure. -/
def lineZ (z : ℚ) : List Coord → Except String (List Coord)
  | [] => .ok []
  | c :: t => do
      let xy ← unpack2 c
      let rest ← lineZ z t
      return [xy.1, xy.2, z] :: rest

/-- The comprehension applied to every ring of a ring list. -/
def ringsZ (z : ℚ) : List (List Coord) → Except String (List (List Coord))
  | [] => .ok []
  | r :: t => do
      let r' ← lineZ z r
      let t' ← ringsZ z t
      return r' :: t'

/-- One member of a MultiPoint: Point(p.x, p.y, z). -/
def ptZ (z : ℚ) (c : Coord) : Except String Coord :=
  (ptXY c).map (fun xy => [xy.1, xy.2, z])

/-- The member comprehension of the MultiPoint arm. -/
def ptsZ (z : ℚ) : List Coord → Except String (List Coord)
  | [] => .ok []
  | c :: t => do
      let c' ← ptZ z c
      let t' ← ptsZ z t
      return c' :: t'

/-- One member of a MultiPolygon: its exterior ring and interior rings,
each run through the coordinate comprehension. -/
def polyZ (z : ℚ) (pr : List Coord × List (List Coord)) :
    Except String (List Coord × List (List Coord)) := do
  let e ← lineZ z pr.1
  let hs ← ringsZ z pr.2
  return (e, hs)

/-- The member loop of the MultiPolygon arm. -/
def polysZ (z : ℚ) :
    List (List Coord × List (List Coord)) →
      Except String (List (List Coord × List (List Coord)))
  | [] => .ok []
  | pr :: t => do
      let pr' ← polyZ z pr
      let t' ← polysZ z t
      return pr' :: t'

mutual
/-- Source lines 75-100, the dispatch of add_z_to_geom on a non-null
geometry. The is_empty test is first, as in line 77; each branch mirrors
one arm of the geom_type if chain; the final arm is the fallthrough
return geom. -/
def addZGeom (g : Geom) (z : ℚ) : Except String Geom :=
  if g.is_empty then .ok g
  else
    match g with
    | .point c => (ptXY c).map (fun xy => .point [xy.1, xy.2, z])
    | .multiPoint ps => (ptsZ z ps).map .multiPoint
    | .lineString cs => (lineZ z cs).map .lineString
    | .multiLineString ls => (ringsZ z ls).map .multiLineString
    | .polygon ext holes => do
        let e ← lineZ z ext
        let hs ← ringsZ z holes
        return .polygon e hs
    | .multiPolygon ps => (polysZ z ps).map .multiPolygon
    | .geometryCollection gs => (addZGeomSeq gs z).map .geometryCollection
    | .unknownKind tag => .ok (.unknownKind tag)
def addZGeomSeq (gs : GeomSeq) (z : ℚ) : Except String GeomSeq
  := match gs with
  | .nil => .ok .nil
  | .cons g t => do
      let g' ← addZGeom g z
      let t' ← addZGeomSeq t z
      return .cons g' t'
end

/-- Source line 77 includes the geom is None test: the full function takes
an optional geometry and passes None through unchanged. -/
def add_z_to_geom (geom : Option Geom) (z : ℚ) : Except String (Option Geom) :=
  match geom with
  | none => .ok none
  | some g => (addZGeom g z).map some

/-- A two-component coordinate tuple. -/
def coord2 (c : Coord) : Bool := c.length == 2

mutual
/-- Every coordinate tuple of the geometry has exactly two components
(empty points allowed); the planar input shape produced by reading a 2D
shapefile. Unrecognised kinds are excluded: nothing is known about their
coordinates. -/
def Geom.is_2d : Geom → Bool
  | .point c => c.isEmpty || coord2 c
  | .multiPoint ps => ps.all coord2
  | .lineString cs => cs.all coord2
  | .multiLineString ls => ls.all (List.all · coord2)
  | .polygon ext holes => ext.all coord2 && holes.all (List.all · coord2)
  | .multiPolygon ps => ps.all (fun pr => pr.1.all coord2 && pr.2.all (List.all · coord2))
  | .geometryCollection gs => GeomSeq.all_2d gs
  | .unknownKind _ => false
def GeomSeq.all_2d : GeomSeq → Bool
  | .nil => true
  | .cons g t => Geom.is_2d g && GeomSeq.all_2d t
end

mutual
/-- Shapely representability of rings: a polygon with no exterior ring
has no interior rings (a hole cannot exist without a shell). -/
def Geom.ring_wf : Geom → Bool
  | .polygon ext holes => !ext.isEmpty || holes.isEmpty
  | .multiPolygon ps => ps.all (fun pr => !pr.1.isEmpty || pr.2.isEmpty)
  | .geometryCollection gs => GeomSeq.all_ring_wf gs
  | _ => true
def GeomSeq.all_ring_wf : GeomSeq → Bool
  | .nil => true
  | .cons g t => Geom.ring_wf g && GeomSeq.all_ring_wf t
end

mutual
/-- Forget every coordinate component beyond the first two. On the output
of the elevator this recovers the input, which shows that kind, vertex
count, ring count, ring order and winding, and member count and order are
all preserved. -/
def Geom.drop_z : Geom → Geom
  | .point c => .point (c.take 2)
  | .multiPoint ps => .multiPoint (ps.map (List.take 2))
  | .lineString cs => .lineString (cs.map (List.take 2))
  | .multiLineString ls => .multiLineString (ls.map (List.map (List.take 2)))
  | .polygon ext holes =>
      .polygon (ext.map (List.take 2)) (holes.map (List.map (List.take 2)))
  | .multiPolygon ps =>
      .multiPolygon (ps.map (fun pr => (pr.1.map (List.take 2), pr.2.map (List.map (List.take 2)))))
  | .geometryCollection gs => .geometryCollection (GeomSeq.map_drop_z gs)
  | .unknownKind tag => .unknownKind tag
def GeomSeq.map_drop_z : GeomSeq → GeomSeq
  | .nil => .nil
  | .cons g t => .cons (Geom.drop_z g) (GeomSeq.map_drop_z t)
end

/-- A coordinate tuple whose third and last component is exactly z. -/
def coordZ (z : ℚ) (c : Coord) : Bool :=
  match c with
  | [_, _, w] => decide (w = z)
  | _ => false

mutual
/-- Every coordinate tuple of the geometry carries exactly z as its third
component; empty points and empty members, which carry no coordinates,
are vacuously fine, as are unrecognised kinds, whose coordinates are not
modelled. -/
def Geom.has_z_eq (z : ℚ) : Geom → Bool
  | .point c => c.isEmpty || coordZ z c
  | .multiPoint ps => ps.all (fun c => c.isEmpty || coordZ z c)
  | .lineString cs => cs.all (coordZ z)
  | .multiLineString ls => ls.all (List.all · (coordZ z))
  | .polygon ext holes => ext.all (coordZ z) && holes.all (List.all · (coordZ z))
  | .multiPolygon ps =>
      ps.all (fun pr => pr.1.all (coordZ z) && pr.2.all (List.all · (coordZ z)))
  | .geometryCollection gs => GeomSeq.all_has_z_eq z gs
  | .unknownKind _ => true
def GeomSeq.all_has_z_eq (z : ℚ) : GeomSeq → Bool
  | .nil => true
  | .cons g t => Geom.has_z_eq z g && GeomSeq.all_has_z_eq z t
end

/-! ## Correctness of the geometry elevator -/

theorem coord2_iff {c : Coord} : coord2 c = true ↔ ∃ x y, c = [x, y] := by
  simp [coord2, ← List.length_eq_two]

theorem take2_of_coord2 {c : Coord} (h : coord2 c = true) : c.take 2 = c := by
  obtain ⟨x, y, rfl⟩ := coord2_iff.mp h
  rfl

theorem map_take2_of_all2 :
    ∀ {cs : List Coord}, cs.all coord2 = true → cs.map (List.take 2) = cs := by
  intro cs h
  induction cs with
  | nil => rfl
  | cons c t ih =>
      simp only [List.all_cons, Bool.and_eq_true] at h
      simp [take2_of_coord2 h.1, ih h.2]

theorem map2_take2_of_all2 :
    ∀ {rs : List (List Coord)}, rs.all (List.all · coord2) = true →
      rs.map (List.map (List.take 2)) = rs := by
  intro rs h
  induction rs with
  | nil => rfl
  | cons r t ih =>
      simp only [List.all_cons, Bool.and_eq_true] at h
      simp [map_take2_of_all2 h.1, ih h.2]

theorem coordZ_triple (z x y : ℚ) : coordZ z [x, y, z] = true := by simp [coordZ]

theorem lineZ_ok (z : ℚ) :
    ∀ {cs : List Coord}, cs.all coord2 = true →
      ∃ cs', lineZ z cs = .ok cs' ∧ cs'.map (List.take 2) = cs ∧
        cs'.all (coordZ z) = true
  | [], _ => ⟨[], rfl, rfl, rfl⟩
  | c :: t, h => by
      simp only [List.all_cons, Bool.and_eq_true] at h
      obtain ⟨x, y, rfl⟩ := coord2_iff.mp h.1
      obtain ⟨t', ht, hsh, hz⟩ := lineZ_ok z h.2
      exact ⟨[x, y, z] :: t',
        by simp [lineZ, unpack2, ht, Bind.bind, Except.bind, pure, Except.pure],
        by simp [hsh], by simp [hz, coordZ]⟩

theorem ringsZ_ok (z : ℚ) :
    ∀ {rs : List (List Coord)}, rs.all (List.all · coord2) = true →
      ∃ rs', ringsZ z rs = .ok rs' ∧ rs'.map (List.map (List.take 2)) = rs ∧
        rs'.all (List.all · (coordZ z)) = true
  | [], _ => ⟨[], rfl, rfl, rfl⟩
  | r :: t, h => by
      simp only [List.all_cons, Bool.and_eq_true] at h
      obtain ⟨r', hr, hrsh, hrz⟩ := lineZ_ok z h.1
      obtain ⟨t', ht, hsh, hz⟩ := ringsZ_ok z h.2
      exact ⟨r' :: t',
        by simp [ringsZ, hr, ht, Bind.bind, Except.bind, pure, Except.pure],
        by simp [hrsh, hsh], by simp [hrz, hz]⟩

theorem ptsZ_ok (z : ℚ) :
    ∀ {ps : List Coord}, ps.all coord2 = true →
      ∃ ps', ptsZ z ps = .ok ps' ∧ ps'.map (List.take 2) = ps ∧
        ps'.all (fun c => c.isEmpty || coordZ z c) = true
  | [], _ => ⟨[], rfl, rfl, rfl⟩
  | c :: t, h => by
      simp only [List.all_cons, Bool.and_eq_true] at h
      obtain ⟨x, y, rfl⟩ := coord2_iff.mp h.1
      obtain ⟨t', ht, hsh, hz⟩ := ptsZ_ok z h.2
      exact ⟨[x, y, z] :: t',
        by simp [ptsZ, ptZ, ptXY, ht, Bind.bind, Except.bind, Except.map, pure, Except.pure],
        by simp [hsh], by rw [List.all_cons, hz]; simp [coordZ]⟩

theorem polyZ_ok (z : ℚ) {pr : List Coord × List (List Coord)}
    (he : pr.1.all coord2 = true) (hh : pr.2.all (List.all · coord2) = true) :
    ∃ pr', polyZ z pr = .ok pr' ∧
      pr'.1.map (List.take 2) = pr.1 ∧ pr'.2.map (List.map (List.take 2)) = pr.2 ∧
      pr'.1.all (coordZ z) = true ∧ pr'.2.all (List.all · (coordZ z)) = true := by
  obtain ⟨e', hev, hes, hez⟩ := lineZ_ok z he
  obtain ⟨h', hhv, hhs, hhz⟩ := ringsZ_ok z hh
  exact ⟨(e', h'), by simp [polyZ, hev, hhv, Bind.bind, Except.bind, pure, Except.pure], hes, hhs, hez, hhz⟩

theorem polysZ_ok (z : ℚ) :
    ∀ {ps : List (List Coord × List (List Coord))},
      ps.all (fun pr => pr.1.all coord2 && pr.2.all (List.all · coord2)) = true →
      ∃ ps', polysZ z ps = .ok ps' ∧
        ps'.map (fun pr => (pr.1.map (List.take 2), pr.2.map (List.map (List.take 2)))) = ps ∧
        ps'.all (fun pr => pr.1.all (coordZ z) && pr.2.all (List.all · (coordZ z))) = true
  | [], _ => ⟨[], rfl, rfl, rfl⟩
  | pr :: t, h => by
      simp only [List.all_cons, Bool.and_eq_true] at h
      obtain ⟨pr', hprv, hs1, hs2, hz1, hz2⟩ := polyZ_ok z h.1.1 h.1.2
      obtain ⟨t', ht, hsh, hz⟩ := polysZ_ok z h.2
      exact ⟨pr' :: t',
        by simp [polysZ, hprv, ht, Bind.bind, Except.bind, pure, Except.pure],
        by simp [hs1, hs2, hsh], by simp [hz1, hz2, hz]⟩

mutual
theorem drop_z_of_2d : ∀ g : Geom, g.is_2d = true → g.drop_z = g
  | .point c, h => by
      simp only [Geom.is_2d, Bool.or_eq_true] at h
      rcases h with h | h
      · simp [Geom.drop_z, List.isEmpty_iff.mp h]
      · simp [Geom.drop_z, take2_of_coord2 h]
  | .multiPoint ps, h => by
      simp only [Geom.is_2d] at h
      simp [Geom.drop_z, map_take2_of_all2 h]
  | .lineString cs, h => by
      simp only [Geom.is_2d] at h
      simp [Geom.drop_z, map_take2_of_all2 h]
  | .multiLineString ls, h => by
      simp only [Geom.is_2d] at h
      simp [Geom.drop_z, map2_take2_of_all2 h]
  | .polygon ext holes, h => by
      simp only [Geom.is_2d, Bool.and_eq_true] at h
      simp [Geom.drop_z, map_take2_of_all2 h.1, map2_take2_of_all2 h.2]
  | .multiPolygon ps, h => by
      simp only [Geom.is_2d] at h
      have : ∀ pr ∈ ps,
          (pr.1.map (List.take 2), pr.2.map (List.map (List.take 2))) = pr := by
        intro pr hpr
        have hp := List.all_eq_true.mp h pr hpr
        simp only [Bool.and_eq_true] at hp
        simp [map_take2_of_all2 hp.1, map2_take2_of_all2 hp.2]
      simp only [Geom.drop_z]
      rw [List.map_congr_left this, List.map_id']
  | .geometryCollection gs, h => by
      simp only [Geom.is_2d] at h
      simp [Geom.drop_z, seq_drop_z_of_2d gs h]
  | .unknownKind tag, h => rfl
theorem seq_drop_z_of_2d : ∀ gs : GeomSeq, gs.all_2d = true → gs.map_drop_z = gs
  | .nil, _ => rfl
  | .cons g t, h => by
      simp only [GeomSeq.all_2d, Bool.and_eq_true] at h
      simp [GeomSeq.map_drop_z, drop_z_of_2d g h.1, seq_drop_z_of_2d t h.2]
end

mutual
theorem has_z_of_empty (z : ℚ) :
    ∀ g : Geom, g.is_empty = true → g.ring_wf = true → g.has_z_eq z = true
  | .point c, he, _ => by
      simp only [Geom.is_empty] at he
      simp [Geom.has_z_eq, he]
  | .multiPoint ps, he, _ => by
      simp only [Geom.is_empty] at he
      simp only [Geom.has_z_eq, List.all_eq_true] at he ⊢
      intro c hc
      simp [he c hc]
  | .lineString cs, he, _ => by
      simp only [Geom.is_empty] at he
      simp [Geom.has_z_eq, List.isEmpty_iff.mp he]
  | .multiLineString ls, he, _ => by
      simp only [Geom.is_empty] at he
      simp only [Geom.has_z_eq, List.all_eq_true] at he ⊢
      intro r hr
      simp [List.isEmpty_iff.mp (he r hr)]
  | .polygon ext holes, he, hw => by
      simp only [Geom.is_empty] at he
      simp only [Geom.ring_wf, he, Bool.not_true, Bool.false_or] at hw
      simp [Geom.has_z_eq, List.isEmpty_iff.mp he, List.isEmpty_iff.mp hw]
  | .multiPolygon ps, he, hw => by
      simp only [Geom.is_empty] at he
      simp only [Geom.ring_wf] at hw
      simp only [Geom.has_z_eq, List.all_eq_true] at he hw ⊢
      intro pr hpr
      have h1 := he pr hpr
      have h2 := hw pr hpr
      rw [h1, Bool.not_true, Bool.false_or] at h2
      simp [List.isEmpty_iff.mp h1, List.isEmpty_iff.mp h2]
  | .geometryCollection gs, he, hw => by
      simp only [Geom.is_empty] at he
      simp only [Geom.ring_wf] at hw
      simp [Geom.has_z_eq, seq_has_z_of_empty z gs he hw]
  | .unknownKind tag, he, _ => rfl
theorem seq_has_z_of_empty (z : ℚ) :
    ∀ gs : GeomSeq, gs.all_empty = true → gs.all_ring_wf = true →
      gs.all_has_z_eq z = true
  | .nil, _, _ => rfl
  | .cons g t, he, hw => by
      simp only [GeomSeq.all_empty, Bool.and_eq_true] at he
      simp only [GeomSeq.all_ring_wf, Bool.and_eq_true] at hw
      simp [GeomSeq.all_has_z_eq, has_z_of_empty z g he.1 hw.1,
        seq_has_z_of_empty z t he.2 hw.2]
end

/-- The empty passthrough case of the dispatch: the geometry is returned
unchanged, and on planar representable input that is already the claimed
shape. -/
theorem addZ_empty_case {g : Geom} (z : ℚ) (he : g.is_empty = true)
    (h2 : g.is_2d = true) (hw : g.ring_wf = true) :
    ∃ g', addZGeom g z = .ok g' ∧ g'.geom_type = g.geom_type ∧
      g'.drop_z = g ∧ g'.has_z_eq z = true :=
  ⟨g, by unfold addZGeom; simp [he], rfl, drop_z_of_2d g h2, has_z_of_empty z g he hw⟩

mutual
/-- Main lemma: on planar representable input of every kind, the dispatch
succeeds, keeps the kind, keeps the whole 2D structure (vertices, rings,
members, in order), and stamps z on every coordinate. -/
theorem addZGeom_ok : ∀ (g : Geom) (z : ℚ), g.is_2d = true → g.ring_wf = true →
    ∃ g', addZGeom g z = .ok g' ∧ g'.geom_type = g.geom_type ∧
      g'.drop_z = g ∧ g'.has_z_eq z = true
  | .point c, z, h2, hw => by
      by_cases he : (Geom.point c).is_empty = true
      · exact addZ_empty_case z he h2 hw
      · simp only [Geom.is_empty] at he
        simp only [Geom.is_2d, Bool.or_eq_true] at h2
        have hc : coord2 c = true := by
          rcases h2 with h | h
          · exact absurd h he
          · exact h
        obtain ⟨x, y, rfl⟩ := coord2_iff.mp hc
        exact ⟨.point [x, y, z], by simp [addZGeom, Geom.is_empty, ptXY, Except.map],
          rfl, by simp [Geom.drop_z], by simp [Geom.has_z_eq, coordZ]⟩
  | .multiPoint ps, z, h2, hw => by
      by_cases he : (Geom.multiPoint ps).is_empty = true
      · exact addZ_empty_case z he h2 hw
      · simp only [Geom.is_2d] at h2
        obtain ⟨ps', hv, hsh, hz⟩ := ptsZ_ok z h2
        exact ⟨.multiPoint ps', by simp [addZGeom, he, hv, Except.map],
          rfl, by simp only [Geom.drop_z, hsh],
          by simp only [Geom.has_z_eq]; exact hz⟩
  | .lineString cs, z, h2, hw => by
      by_cases he : (Geom.lineString cs).is_empty = true
      · exact addZ_empty_case z he h2 hw
      · simp only [Geom.is_2d] at h2
        obtain ⟨cs', hv, hsh, hz⟩ := lineZ_ok z h2
        exact ⟨.lineString cs', by simp [addZGeom, he, hv, Except.map],
          rfl, by simp only [Geom.drop_z, hsh],
          by simp only [Geom.has_z_eq]; exact hz⟩
  | .multiLineString ls, z, h2, hw => by
      by_cases he : (Geom.multiLineString ls).is_empty = true
      · exact addZ_empty_case z he h2 hw
      · simp only [Geom.is_2d] at h2
        obtain ⟨ls', hv, hsh, hz⟩ := ringsZ_ok z h2
        exact ⟨.multiLineString ls', by simp [addZGeom, he, hv, Except.map],
          rfl, by simp only [Geom.drop_z, hsh],
          by simp only [Geom.has_z_eq]; exact hz⟩
  | .polygon ext holes, z, h2, hw => by
      by_cases he : (Geom.polygon ext holes).is_empty = true
      · exact addZ_empty_case z he h2 hw
      · simp only [Geom.is_2d, Bool.and_eq_true] at h2
        obtain ⟨e', hev, hes, hez⟩ := lineZ_ok z h2.1
        obtain ⟨h', hhv, hhs, hhz⟩ := ringsZ_ok z h2.2
        refine ⟨.polygon e' h',
          by simp [addZGeom, he, hev, hhv, Bind.bind, Except.bind, pure, Except.pure],
          rfl, by simp only [Geom.drop_z, hes, hhs], ?_⟩
        simp only [Geom.has_z_eq, Bool.and_eq_true]
        exact ⟨hez, hhz⟩
  | .multiPolygon ps, z, h2, hw => by
      by_cases he : (Geom.multiPolygon ps).is_empty = true
      · exact addZ_empty_case z he h2 hw
      · simp only [Geom.is_2d] at h2
        obtain ⟨ps', hv, hsh, hz⟩ := polysZ_ok z h2
        exact ⟨.multiPolygon ps', by simp [addZGeom, he, hv, Except.map],
          rfl, by simp only [Geom.drop_z, hsh],
          by simp only [Geom.has_z_eq]; exact hz⟩
  | .geometryCollection gs, z, h2, hw => by
      by_cases he : (Geom.geometryCollection gs).is_empty = true
      · exact addZ_empty_case z he h2 hw
      · simp only [Geom.is_2d] at h2
        simp only [Geom.ring_wf] at hw
        obtain ⟨gs', hv, hsh, hz⟩ := addZGeomSeq_ok gs z h2 hw
        exact ⟨.geometryCollection gs', by simp [addZGeom, he, hv, Except.map],
          rfl, by simp only [Geom.drop_z, hsh],
          by simp only [Geom.has_z_eq]; exact hz⟩
  | .unknownKind tag, z, h2, hw => by
      simp [Geom.is_2d] at h2
theorem addZGeomSeq_ok : ∀ (gs : GeomSeq) (z : ℚ),
    gs.all_2d = true → gs.all_ring_wf = true →
    ∃ gs', addZGeomSeq gs z = .ok gs' ∧ gs'.map_drop_z = gs ∧
      gs'.all_has_z_eq z = true
  | .nil, z, _, _ => ⟨.nil, rfl, rfl, rfl⟩
  | .cons g t, z, h2, hw => by
      simp only [GeomSeq.all_2d, Bool.and_eq_true] at h2
      simp only [GeomSeq.all_ring_wf, Bool.and_eq_true] at hw
      obtain ⟨g', hg, hgt, hgd, hgz⟩ := addZGeom_ok g z h2.1 hw.1
      obtain ⟨t', ht, htd, htz⟩ := addZGeomSeq_ok t z h2.2 hw.2
      exact ⟨.cons g' t',
        by simp [addZGeomSeq, hg, ht, Bind.bind, Except.bind, pure, Except.pure],
        by simp [GeomSeq.map_drop_z, hgd, htd],
        by simp [GeomSeq.all_has_z_eq, hgz, htz]⟩
end

/-- Claim C1: for every supported 2D geometry kind and every elevation z,
add_z_to_geom succeeds and returns a geometry of the same kind whose 2D
projection is exactly the input (hence vertex count, ring count, ring
winding order, and member count and order are preserved), and every
coordinate of the result carries exactly z as its third component. The
hypotheses say the input is planar and shapely representable. -/
theorem add_z_to_geom_preserves (g : Geom) (z : ℚ)
    (h2 : g.is_2d = true) (hw : g.ring_wf = true) :
    ∃ g', add_z_to_geom (some g) z = .ok (some g') ∧
      g'.geom_type = g.geom_type ∧ g'.drop_z = g ∧ g'.has_z_eq z = true := by
  obtain ⟨g', h1, hgt, hd, hz⟩ := addZGeom_ok g z h2 hw
  exact ⟨g', by simp [add_z_to_geom, h1, Except.map], hgt, hd, hz⟩

/-- Concrete instantiation of claim C1: a collection holding a polygon
with a hole and a line. -/
theorem add_z_to_geom_preserves_spot :
    ∃ g', add_z_to_geom (some (Geom.geometryCollection
        (.cons (.polygon [[0, 0], [4, 0], [4, 4], [0, 0]]
                  [[[1, 1], [2, 1], [1, 2], [1, 1]]])
          (.cons (.lineString [[0, 0], [1, 1]]) .nil)))) 5 = .ok (some g') ∧
      g'.geom_type = (Geom.geometryCollection
        (.cons (.polygon [[0, 0], [4, 0], [4, 4], [0, 0]]
                  [[[1, 1], [2, 1], [1, 2], [1, 1]]])
          (.cons (.lineString [[0, 0], [1, 1]]) .nil))).geom_type ∧
      g'.drop_z = Geom.geometryCollection
        (.cons (.polygon [[0, 0], [4, 0], [4, 4], [0, 0]]
                  [[[1, 1], [2, 1], [1, 2], [1, 1]]])
          (.cons (.lineString [[0, 0], [1, 1]]) .nil)) ∧
      g'.has_z_eq 5 = true :=
  add_z_to_geom_preserves _ 5 rfl rfl

/-- Counterexample to claim C4 as stated: on a LineString whose vertices
already carry a third coordinate, add_z_to_geom raises a ValueError (the
for x, y unpacking of a 3-tuple fails) instead of replacing the third
coordinate. -/
theorem add_z_3d_lineString_raises :
    add_z_to_geom (some (Geom.lineString [[0, 0, 1], [1, 1, 1]])) 5 =
      .error "ValueError: cannot unpack coordinate into (x, y)" := rfl

theorem all_coord2_of {cs : List Coord} (h : ∀ c ∈ cs, c.length = 2) :
    cs.all coord2 = true :=
  List.all_eq_true.mpr (fun c hc => by simp [coord2, h c hc])

theorem all2_coord2_of {rs : List (List Coord)}
    (h : ∀ r ∈ rs, ∀ c ∈ r, c.length = 2) :
    rs.all (List.all · coord2) = true :=
  List.all_eq_true.mpr (fun r hr => all_coord2_of (h r hr))

theorem unpack2_err : ∀ c : Coord, c.length ≠ 2 →
    unpack2 c = .error "ValueError: cannot unpack coordinate into (x, y)"
  | [], _ => rfl
  | [_], _ => rfl
  | [_, _], h => absurd rfl h
  | _ :: _ :: _ :: _, _ => rfl

/-- The coordinate comprehension raises as soon as it reaches a tuple that
does not unpack into exactly two names, wherever in the sequence it sits. -/
theorem lineZ_err (z : ℚ) : ∀ cs : List Coord, (∃ c ∈ cs, c.length ≠ 2) →
    lineZ z cs = .error "ValueError: cannot unpack coordinate into (x, y)"
  | [], h => by simp at h
  | c :: t, h => by
      by_cases hc : c.length = 2
      · obtain ⟨x, y, rfl⟩ := List.length_eq_two.mp hc
        have ht : ∃ c ∈ t, c.length ≠ 2 := by
          rcases h with ⟨c2, hmem, hlen⟩
          rcases List.mem_cons.mp hmem with rfl | hmem2
          · exact absurd rfl hlen
          · exact ⟨c2, hmem2, hlen⟩
        simp [lineZ, unpack2, lineZ_err z t ht, Bind.bind, Except.bind]
      · simp [lineZ, unpack2_err c hc, Bind.bind, Except.bind]

/-- The same, lifted to a list of rings: a bad tuple in any ring raises. -/
theorem ringsZ_err (z : ℚ) :
    ∀ rs : List (List Coord), (∃ r ∈ rs, ∃ c ∈ r, c.length ≠ 2) →
      ringsZ z rs = .error "ValueError: cannot unpack coordinate into (x, y)"
  | [], h => by simp at h
  | r :: t, h => by
      by_cases hr : ∃ c ∈ r, c.length ≠ 2
      · simp [ringsZ, lineZ_err z r hr, Bind.bind, Except.bind]
      · push_neg at hr
        obtain ⟨r2, hrv, _, _⟩ := lineZ_ok z (all_coord2_of hr)
        have ht : ∃ r3 ∈ t, ∃ c ∈ r3, c.length ≠ 2 := by
          rcases h with ⟨r3, hmem, hc⟩
          rcases List.mem_cons.mp hmem with rfl | hmem2
          · rcases hc with ⟨c, hcm, hcl⟩
            exact absurd (hr c hcm) hcl
          · exact ⟨r3, hmem2, hc⟩
        simp [ringsZ, hrv, ringsZ_err z t ht, Bind.bind, Except.bind]

/-- One MultiPolygon member raises when its exterior or any of its holes
holds a bad tuple. -/
theorem polyZ_err (z : ℚ) {pr : List Coord × List (List Coord)}
    (h : (∃ c ∈ pr.1, c.length ≠ 2) ∨ ∃ r ∈ pr.2, ∃ c ∈ r, c.length ≠ 2) :
    polyZ z pr = .error "ValueError: cannot unpack coordinate into (x, y)" := by
  by_cases he : ∃ c ∈ pr.1, c.length ≠ 2
  · simp [polyZ, lineZ_err z pr.1 he, Bind.bind, Except.bind]
  · have hh := h.resolve_left he
    push_neg at he
    obtain ⟨e2, hev, _, _⟩ := lineZ_ok z (all_coord2_of he)
    simp [polyZ, hev, ringsZ_err z pr.2 hh, Bind.bind, Except.bind]

/-- The MultiPolygon member loop raises when any member holds a bad tuple. -/
theorem polysZ_err (z : ℚ) :
    ∀ ps : List (List Coord × List (List Coord)),
      (∃ pr ∈ ps, (∃ c ∈ pr.1, c.length ≠ 2) ∨ ∃ r ∈ pr.2, ∃ c ∈ r, c.length ≠ 2) →
      polysZ z ps = .error "ValueError: cannot unpack coordinate into (x, y)"
  | [], h => by simp at h
  | pr :: t, h => by
      by_cases hp : (∃ c ∈ pr.1, c.length ≠ 2) ∨ ∃ r ∈ pr.2, ∃ c ∈ r, c.length ≠ 2
      · simp [polysZ, polyZ_err z hp, Bind.bind, Except.bind]
      · push_neg at hp
        obtain ⟨pr2, hprv, _, _, _, _⟩ := polyZ_ok z (all_coord2_of hp.1) (all2_coord2_of hp.2)
        have ht : ∃ pr3 ∈ t, (∃ c ∈ pr3.1, c.length ≠ 2) ∨ ∃ r ∈ pr3.2, ∃ c ∈ r, c.length ≠ 2 := by
          rcases h with ⟨pr3, hmem, hc⟩
          rcases List.mem_cons.mp hmem with rfl | hmem2
          · rcases hc with ⟨c, hcm, hcl⟩ | ⟨r, hrm, c, hcm, hcl⟩
            · exact absurd (hp.1 c hcm) hcl
            · exact absurd (hp.2 r hrm c hcm) hcl
          · exact ⟨pr3, hmem2, hc⟩
        simp [polysZ, hprv, polysZ_err z t ht, Bind.bind, Except.bind]

mutual
/-- A geometry built only of points: a Point or MultiPoint whose every
coordinate tuple has at least the two components the x and y accessors
read, or a GeometryCollection of such geometries. These are exactly the
kinds whose arms in add_z_to_geom go through Point(p.x, p.y, z). -/
def Geom.pm_only : Geom → Bool
  | .point c => decide (2 ≤ c.length)
  | .multiPoint ps => ps.all (fun c => decide (2 ≤ c.length))
  | .geometryCollection gs => GeomSeq.all_pm_only gs
  | _ => false
def GeomSeq.all_pm_only : GeomSeq → Bool
  | .nil => true
  | .cons g t => Geom.pm_only g && GeomSeq.all_pm_only t
end

mutual
/-- What the Point and MultiPoint arms produce: keep x and y, drop any
further components (in particular a pre-existing third coordinate), and
put z third. -/
def Geom.pm_replace (z : ℚ) : Geom → Geom
  | .point c => .point (c.take 2 ++ [z])
  | .multiPoint ps => .multiPoint (ps.map (fun c => c.take 2 ++ [z]))
  | .geometryCollection gs => .geometryCollection (GeomSeq.pm_replace_seq z gs)
  | g => g
def GeomSeq.pm_replace_seq (z : ℚ) : GeomSeq → GeomSeq
  | .nil => .nil
  | .cons g t => .cons (Geom.pm_replace z g) (GeomSeq.pm_replace_seq z t)
end

/-- The MultiPoint member loop on members that have at least x and y:
each member keeps x and y and gets z third, whatever else it carried. -/
theorem ptsZ_ge2 (z : ℚ) : ∀ ps : List Coord, (∀ c ∈ ps, 2 ≤ c.length) →
    ptsZ z ps = .ok (ps.map (fun c => c.take 2 ++ [z]))
  | [], _ => rfl
  | c :: t, h => by
      have hc := h c (by simp)
      cases c with
      | nil => simp at hc
      | cons x t1 =>
          cases t1 with
          | nil => simp at hc
          | cons y r =>
              simp [ptsZ, ptZ, ptXY, Except.map, Bind.bind, Except.bind,
                pure, Except.pure, List.take,
                ptsZ_ge2 z t (fun c hc => h c (by simp [hc]))]

mutual
theorem pm_replace_of_empty : ∀ (g : Geom) (z : ℚ),
    g.is_empty = true → g.pm_only = true → g.pm_replace z = g
  | .point c, z, he, hok => by
      simp only [Geom.is_empty] at he
      obtain rfl := List.isEmpty_iff.mp he
      simp [Geom.pm_only] at hok
  | .multiPoint ps, z, he, hok => by
      cases ps with
      | nil => rfl
      | cons c t =>
          simp only [Geom.is_empty, List.all_cons, Bool.and_eq_true] at he
          simp only [Geom.pm_only, List.all_cons, Bool.and_eq_true] at hok
          obtain rfl := List.isEmpty_iff.mp he.1
          simp at hok
  | .geometryCollection gs, z, he, hok => by
      simp only [Geom.is_empty] at he
      simp only [Geom.pm_only] at hok
      simp [Geom.pm_replace, pm_replace_seq_of_empty gs z he hok]
  | .lineString _, _, _, hok => by simp [Geom.pm_only] at hok
  | .multiLineString _, _, _, hok => by simp [Geom.pm_only] at hok
  | .polygon _ _, _, _, hok => by simp [Geom.pm_only] at hok
  | .multiPolygon _, _, _, hok => by simp [Geom.pm_only] at hok
  | .unknownKind _, _, _, hok => by simp [Geom.pm_only] at hok
theorem pm_replace_seq_of_empty : ∀ (gs : GeomSeq) (z : ℚ),
    gs.all_empty = true → gs.all_pm_only = true →
    GeomSeq.pm_replace_seq z gs = gs
  | .nil, _, _, _ => rfl
  | .cons g t, z, he, hok => by
      simp only [GeomSeq.all_empty, Bool.and_eq_true] at he
      simp only [GeomSeq.all_pm_only, Bool.and_eq_true] at hok
      simp [GeomSeq.pm_replace_seq, pm_replace_of_empty g z he.1 hok.1,
        pm_replace_seq_of_empty t z he.2 hok.2]
end

mutual
/-- On a points-only geometry the dispatch always succeeds and performs
the keep-x-and-y, stamp-z replacement, whatever third (or further)
components the input carried, including through nested collections. -/
theorem addZ_pm : ∀ (g : Geom) (z : ℚ), g.pm_only = true →
    addZGeom g z = .ok (g.pm_replace z)
  | .point c, z, hok => by
      simp only [Geom.pm_only] at hok
      have hc : 2 ≤ c.length := of_decide_eq_true hok
      cases c with
      | nil => simp at hc
      | cons x t1 =>
          cases t1 with
          | nil => simp at hc
          | cons y r =>
              simp [addZGeom, Geom.is_empty, ptXY, Except.map,
                Geom.pm_replace, List.take]
  | .multiPoint ps, z, hok => by
      simp only [Geom.pm_only, List.all_eq_true] at hok
      have hok2 : ∀ c ∈ ps, 2 ≤ c.length :=
        fun c hc => of_decide_eq_true (hok c hc)
      cases ps with
      | nil => rfl
      | cons c t =>
          have hc := hok2 c (by simp)
          have hne : c.isEmpty = false := by
            cases c with
            | nil => simp at hc
            | cons a b => rfl
          simp [addZGeom, Geom.is_empty, hne, ptsZ_ge2 z _ hok2,
            Except.map, Geom.pm_replace]
  | .geometryCollection gs, z, hok => by
      simp only [Geom.pm_only] at hok
      by_cases he : (Geom.geometryCollection gs).is_empty = true
      · have h1 : addZGeom (Geom.geometryCollection gs) z =
            .ok (Geom.geometryCollection gs) := by
          unfold addZGeom; simp [he]
        rw [h1, pm_replace_of_empty (Geom.geometryCollection gs) z he
          (by simpa [Geom.pm_only] using hok)]
      · simp [addZGeom, he, addZSeq_pm gs z hok, Except.map, Geom.pm_replace]
  | .lineString _, _, hok => by simp [Geom.pm_only] at hok
  | .multiLineString _, _, hok => by simp [Geom.pm_only] at hok
  | .polygon _ _, _, hok => by simp [Geom.pm_only] at hok
  | .multiPolygon _, _, hok => by simp [Geom.pm_only] at hok
  | .unknownKind _, _, hok => by simp [Geom.pm_only] at hok
theorem addZSeq_pm : ∀ (gs : GeomSeq) (z : ℚ), gs.all_pm_only = true →
    addZGeomSeq gs z = .ok (GeomSeq.pm_replace_seq z gs)
  | .nil, _, _ => rfl
  | .cons g t, z, hok => by
      simp only [GeomSeq.all_pm_only, Bool.and_eq_true] at hok
      simp [addZGeomSeq, addZ_pm g z hok.1, addZSeq_pm t z hok.2,
        Bind.bind, Except.bind, pure, Except.pure, GeomSeq.pm_replace_seq]
end

/-- Claim C4 amended: only the Point and MultiPoint arms, and collections
of them, read coordinates through the x and y accessors and hence
silently discard a pre-existing third coordinate and replace it with z;
the LineString, MultiLineString, Polygon and MultiPolygon arms unpack
every coordinate tuple into exactly two names, so a tuple carrying a
third component, wherever it sits (any vertex position, any ring or hole,
any member), makes add_z_to_geom raise ValueError. The ring_wf
hypotheses only demand shapely representability: no holes without a
shell, which would otherwise hide behind the is_empty passthrough. -/
theorem add_z_on_3d_input :
    (∀ (g : Geom) (z : ℚ), g.pm_only = true →
        add_z_to_geom (some g) z = .ok (some (g.pm_replace z))) ∧
      (∀ (cs : List Coord) (z : ℚ), (∃ c ∈ cs, c.length ≠ 2) →
        add_z_to_geom (some (.lineString cs)) z =
          .error "ValueError: cannot unpack coordinate into (x, y)") ∧
      (∀ (ls : List (List Coord)) (z : ℚ), (∃ r ∈ ls, ∃ c ∈ r, c.length ≠ 2) →
        add_z_to_geom (some (.multiLineString ls)) z =
          .error "ValueError: cannot unpack coordinate into (x, y)") ∧
      (∀ (ext : List Coord) (holes : List (List Coord)) (z : ℚ),
        (Geom.polygon ext holes).ring_wf = true →
        ((∃ c ∈ ext, c.length ≠ 2) ∨ ∃ r ∈ holes, ∃ c ∈ r, c.length ≠ 2) →
        add_z_to_geom (some (.polygon ext holes)) z =
          .error "ValueError: cannot unpack coordinate into (x, y)") ∧
      (∀ (ps : List (List Coord × List (List Coord))) (z : ℚ),
        (Geom.multiPolygon ps).ring_wf = true →
        (∃ pr ∈ ps, (∃ c ∈ pr.1, c.length ≠ 2) ∨ ∃ r ∈ pr.2, ∃ c ∈ r, c.length ≠ 2) →
        add_z_to_geom (some (.multiPolygon ps)) z =
          .error "ValueError: cannot unpack coordinate into (x, y)") := by
  refine ⟨?_, ?_, ?_, ?_, ?_⟩
  · intro g z h
    simp [add_z_to_geom, addZ_pm g z h, Except.map]
  · intro cs z h
    have hne : cs.isEmpty = false := by
      rcases h with ⟨c, hc, _⟩
      cases cs
      · simp at hc
      · rfl
    simp [add_z_to_geom, addZGeom, Geom.is_empty, hne,
      lineZ_err z cs h, Except.map]
  · intro ls z h
    have hne : ls.all List.isEmpty = false := by
      rcases h with ⟨r, hr, c, hc, _⟩
      have hrne : r.isEmpty = false := by
        cases r
        · simp at hc
        · rfl
      cases hall : ls.all List.isEmpty
      · rfl
      · exact absurd (List.all_eq_true.mp hall r hr) (by simp [hrne])
    simp [add_z_to_geom, addZGeom, Geom.is_empty, hne,
      ringsZ_err z ls h, Except.map]
  · intro ext holes z hw h
    have hne : ext.isEmpty = false := by
      rcases h with ⟨c, hc, _⟩ | ⟨r, hr, hc⟩
      · cases ext
        · simp at hc
        · rfl
      · have hh : holes.isEmpty = false := by
          cases holes
          · simp at hr
          · rfl
        simp only [Geom.ring_wf, hh, Bool.or_false] at hw
        simpa using hw
    by_cases hext : ∃ c ∈ ext, c.length ≠ 2
    · simp [add_z_to_geom, addZGeom, Geom.is_empty, hne,
        lineZ_err z ext hext, Bind.bind, Except.bind, Except.map]
    · have hh := h.resolve_left hext
      push_neg at hext
      obtain ⟨e2, hev, _, _⟩ := lineZ_ok z (all_coord2_of hext)
      simp [add_z_to_geom, addZGeom, Geom.is_empty, hne, hev,
        ringsZ_err z holes hh, Bind.bind, Except.bind, Except.map]
  · intro ps z hw h
    rcases h with ⟨pr, hpr, hbad⟩
    have hprne : pr.1.isEmpty = false := by
      have hne1 : pr.1 ≠ [] → pr.1.isEmpty = false := by
        intro h0
        cases hp : pr.1.isEmpty
        · rfl
        · exact absurd (List.isEmpty_iff.mp hp) h0
      rcases hbad with ⟨c, hc, _⟩ | ⟨r, hr, _⟩
      · exact hne1 (fun h0 => by
          rw [h0] at hc
          exact absurd hc (List.not_mem_nil c))
      · have hh : pr.2.isEmpty = false := by
          cases hp : pr.2.isEmpty
          · rfl
          · rw [List.isEmpty_iff.mp hp] at hr
            exact absurd hr (List.not_mem_nil r)
        simp only [Geom.ring_wf] at hw
        have hm := List.all_eq_true.mp hw pr hpr
        simp only [hh, Bool.or_false] at hm
        simpa using hm
    have hne : ps.all (fun pr => pr.1.isEmpty) = false := by
      cases hall : ps.all (fun pr => pr.1.isEmpty)
      · rfl
      · exact absurd (List.all_eq_true.mp hall pr hpr) (by simp [hprne])
    simp [add_z_to_geom, addZGeom, Geom.is_empty, hne,
      polysZ_err z ps ⟨pr, hpr, hbad⟩, Except.map]

/-- Concrete instantiations of claim C4: a collection holding a 3D point
gets its third coordinate silently replaced; a LineString whose second
vertex carries a third component raises; a Polygon whose bad vertex sits
inside a hole raises. -/
theorem add_z_on_3d_input_spot :
    add_z_to_geom (some (Geom.geometryCollection (.cons (.point [1, 2, 9]) .nil))) 5 =
      .ok (some (Geom.geometryCollection (.cons (.point [1, 2, 5]) .nil))) ∧
      add_z_to_geom (some (Geom.lineString [[0, 0], [1, 1, 7]])) 5 =
        .error "ValueError: cannot unpack coordinate into (x, y)" ∧
      add_z_to_geom (some (Geom.polygon [[0, 0], [4, 0], [4, 4], [0, 0]]
          [[[1, 1], [2, 1, 7], [1, 2], [1, 1]]])) 5 =
        .error "ValueError: cannot unpack coordinate into (x, y)" :=
  ⟨add_z_on_3d_input.1 _ 5 (by decide),
   add_z_on_3d_input.2.1 _ 5 (by decide),
   add_z_on_3d_input.2.2.2.1 _ _ 5 (by decide) (by decide)⟩

/-- Counterexample to claim C5 as stated: a supported geometry kind
(Polygon) on which add_z_to_geom raises rather than returning a result. -/
theorem add_z_3d_polygon_raises :
    add_z_to_geom (some (Geom.polygon [[0, 0, 7], [1, 0, 7], [1, 1, 7], [0, 0, 7]] [])) 5 =
      .error "ValueError: cannot unpack coordinate into (x, y)" := rfl

/-- Claim C5 amended: None and empty geometries pass through unchanged
with no error, an unrecognised geometry kind passes through unchanged,
and on planar (2D) representable input no geometry kind makes
add_z_to_geom raise; vertices that already carry a third coordinate can
make it raise (see the counterexample). -/
theorem add_z_passthrough :
    (∀ z : ℚ, add_z_to_geom none z = .ok none) ∧
      (∀ (g : Geom) (z : ℚ), g.is_empty = true →
        add_z_to_geom (some g) z = .ok (some g)) ∧
      (∀ (tag : String) (z : ℚ),
        add_z_to_geom (some (.unknownKind tag)) z = .ok (some (.unknownKind tag))) ∧
      (∀ (g : Geom) (z : ℚ), g.is_2d = true → g.ring_wf = true →
        (add_z_to_geom (some g) z).isOk = true) := by
  refine ⟨fun _ => rfl, ?_, fun _ _ => rfl, ?_⟩
  · intro g z he
    simp only [add_z_to_geom]
    unfold addZGeom
    simp [he, Except.map]
  · intro g z h2 hw
    obtain ⟨g', h1, _, _, _⟩ := addZGeom_ok g z h2 hw
    simp [add_z_to_geom, h1, Except.map, Except.isOk, Except.toBool]

/-- Concrete instantiation of claim C5: an empty line passes through, a
planar point succeeds. -/
theorem add_z_passthrough_spot :
    add_z_to_geom (some (Geom.lineString [])) 5 = .ok (some (Geom.lineString [])) ∧
      (add_z_to_geom (some (Geom.point [1, 2])) 5).isOk = true :=
  ⟨add_z_passthrough.2.1 _ 5 rfl, add_z_passthrough.2.2.2 _ 5 rfl rfl⟩

/-! ## File pipeline -/

/-- The name of a path: the part after the last slash (PurePath.name). -/
def basename (p : FName) : FName :=
  (p.reverse.takeWhile (fun c => c != '/')).reverse

/-- PurePath.with_suffix applied with the empty suffix: removes the last
extension of the name. A name with no dot, a name whose only dot is the
leading character (a hidden file), and a name ending in a dot have no
suffix in pathlib and come back unchanged. -/
def withSuffixEmpty (name : FName) : FName :=
  if (name.reverse.takeWhile (fun c => c != '.')).length = name.reverse.length then
    name
  else if (name.reverse.drop
      ((name.reverse.takeWhile (fun c => c != '.')).length + 1)).isEmpty then
    name
  else if (name.reverse.takeWhile (fun c => c != '.')).isEmpty then
    name
  else
    (name.reverse.drop
      ((name.reverse.takeWhile (fun c => c != '.')).length + 1)).reverse

/-- Source line 118: outname = shp.with_suffix("").name + ".3d.geojson". -/
def outName (p : FName) : FName :=
  withSuffixEmpty (basename p) ++ ".3d.geojson".data

/-- Source line 50: the fixed output directory. -/
def OUTPUT_DIR : FName := "geojson".data

/-- Source line 119: outpath = OUTPUT_DIR / outname. -/
def outPath (p : FName) : FName := OUTPUT_DIR ++ '/' :: outName p

/-- An attribute value of a feature: a carried-through input attribute,
or one of the two derived values the script appends. -/
inductive PVal where
  | s (v : String)
  | q (v : ℚ)

/-- One row of a GeoDataFrame: a geometry (possibly None) and the
non-geometry attribute columns, in column order. -/
structure Feature where
  geometry : Option Geom
  props : List (String × PVal)

/-- Source lines 114-116 and 123-128, for one feature: elevate the
geometry with the absolute elevation, and append the two derived columns
after the carried-through attributes, in column order. -/
def process_feature (label : String) (z : ℚ) (ft : Feature) :
    Except String Feature := do
  let g ← add_z_to_geom ft.geometry z
  return ⟨g, ft.props ++ [("__floor", .s label), ("__z_abs", .q z)]⟩

/-- The apply loop over the geometry column: the first exception aborts
the whole file. -/
def process_features (label : String) (z : ℚ) :
    List Feature → Except String (List Feature)
  | [] => .ok []
  | ft :: t => do
      let ft' ← process_feature label z ft
      let t' ← process_features label z t
      return ft' :: t'

/-- Source lines 102-131, process_shp, given the features already read and
reprojected (gpd.read_file and to_crs are delegated library calls, see the
oracle below): resolve the floor label from the basename, compute the
absolute elevation, elevate every feature and append the derived columns,
and derive the output path. The KeyError arm is unreachable, see claim
C10. -/
def process_shp (p : FName) (feats : List Feature) :
    Except String (FName × List Feature) :=
  match FLOOR_OFFSETS.lookup (resolved_label (basename p)) with
  | none => .error "KeyError"
  | some off => do
      let outFeats ← process_features (resolved_label (basename p)) (BASE_Z + off) feats
      return (outPath p, outFeats)

/-- The reading oracle: what gpd.read_file followed by to_crs(4326)
produces for a path, or the exception it raises. Both are deterministic
delegated library calls; modelling them as a function is exactly that. -/
abbrev ReadOracle := FName → Except String (List Feature)

/-- Processing one path end to end: read (delegated), then process_shp. -/
def processFull (data : ReadOracle) (p : FName) :
    Except String (FName × List Feature) :=
  (data p).bind (process_shp p)

/-- One line printed by the script. -/
inductive LogLine where
  | info
  | okFile (file : FName)
  | errFile (file : FName) (msg : String)
  | errNoInput
deriving DecidableEq

/-- Source lines 139-143: the for loop with the per-file try/except. Each
file contributes exactly one log line; a success also contributes exactly
one output document at its output path. -/
def runFiles (data : ReadOracle) :
    List FName → List LogLine × List (FName × List Feature)
  | [] => ([], [])
  | p :: rest =>
      let r := runFiles data rest
      match processFull data p with
      | .ok out => (.okFile p :: r.1, out :: r.2)
      | .error e => (.errFile p e :: r.1, r.2)

/-- Source line 139, sorted(shps): a fixed ascending total order on the
discovered paths. Python orders paths by their component tuples; here the
paths are ordered lexicographically as character sequences, which is a
total order just the same, and no claim depends on which of the two
orders ties the loop to: only on the order being a fixed function of the
set of paths. -/
def sortFiles (l : List FName) : List FName := List.insertionSort (· ≤ ·) l

/-- The observable outcome of one run of main. -/
structure RunOut where
  exitCode : Nat
  logs : List LogLine
  outputs : List (FName × List Feature)

/-- Source lines 133-143, main: rglob produces the discovered list, in an
order the filesystem chooses; an empty list is fatal with exit status 1
before any output; otherwise one info line, then the files in sorted
order with per-file error containment, and exit status 0. -/
def mainRun (discovered : List FName) (data : ReadOracle) : RunOut :=
  if discovered.isEmpty then
    { exitCode := 1, logs := [.errNoInput], outputs := [] }
  else
    { exitCode := 0
      logs := .info :: (runFiles data (sortFiles discovered)).1
      outputs := (runFiles data (sortFiles discovered)).2 }

/-- Claim C7: with zero discovered .shp files the run reports the error
and terminates with exit status 1, before any output is produced. -/
theorem mainRun_no_input (data : ReadOracle) :
    mainRun [] data = { exitCode := 1, logs := [.errNoInput], outputs := [] } := rfl

theorem runFiles_length (data : ReadOracle) :
    ∀ l : List FName, (runFiles data l).1.length = l.length
  | [] => rfl
  | p :: rest => by
      cases hq : processFull data p <;>
        simp [runFiles, hq, runFiles_length data rest]

theorem runFiles_covers (data : ReadOracle) :
    ∀ l : List FName, ∀ p ∈ l,
      (∀ e, processFull data p = .error e →
        LogLine.errFile p e ∈ (runFiles data l).1) ∧
      (∀ out, processFull data p = .ok out →
        LogLine.okFile p ∈ (runFiles data l).1 ∧ out ∈ (runFiles data l).2)
  | [], p, hp => absurd hp (List.not_mem_nil p)
  | q :: rest, p, hp => by
      rcases List.mem_cons.mp hp with rfl | hp2
      · constructor
        · intro e he; simp [runFiles, he]
        · intro out ho; simp [runFiles, ho]
      · have ih := runFiles_covers data rest p hp2
        constructor
        · intro e he
          have h1 := ih.1 e he
          cases hq : processFull data q <;> simp [runFiles, hq, h1]
        · intro out ho
          have h1 := ih.2 out ho
          cases hq : processFull data q <;>
            simp [runFiles, hq, h1.1, h1.2]

/-- Claim C6: with a non-empty discovered list the run exits 0 no matter
how many per-file failures occur, logs exactly one line per file plus the
info line, a failing file is logged as an error carrying its name and
message while the remaining files are still processed, and a succeeding
file is logged and contributes its output. -/
theorem mainRun_continues (discovered : List FName) (data : ReadOracle)
    (hne : discovered ≠ []) :
    (mainRun discovered data).exitCode = 0 ∧
      (mainRun discovered data).logs.length = discovered.length + 1 ∧
      ∀ p ∈ discovered,
        (∀ e, processFull data p = .error e →
          LogLine.errFile p e ∈ (mainRun discovered data).logs) ∧
        (∀ out, processFull data p = .ok out →
          LogLine.okFile p ∈ (mainRun discovered data).logs ∧
          out ∈ (mainRun discovered data).outputs) := by
  have hni : discovered.isEmpty = false := by
    simpa [List.isEmpty_iff] using hne
  have hperm : (sortFiles discovered).Perm discovered :=
    List.perm_insertionSort _ _
  refine ⟨by simp [mainRun, hni], ?_, ?_⟩
  · simp [mainRun, hni, runFiles_length data, hperm.length_eq]
  · intro p hp
    have hp2 : p ∈ sortFiles discovered := hperm.mem_iff.mpr hp
    have h := runFiles_covers data (sortFiles discovered) p hp2
    constructor
    · intro e he
      have h1 := h.1 e he
      simp [mainRun, hni, h1]
    · intro out ho
      have h1 := h.2 out ho
      exact ⟨by simp [mainRun, hni, h1.1], by simp [mainRun, hni, h1.2]⟩

/-- Concrete instantiation of claim C6: a single file whose read fails is
logged with its name and message, and the run still exits 0. -/
theorem mainRun_continues_spot :
    (mainRun ["a.shp".data] (fun _ => .error "read failed")).exitCode = 0 ∧
      LogLine.errFile "a.shp".data "read failed" ∈
        (mainRun ["a.shp".data] (fun _ => .error "read failed")).logs :=
  ⟨(mainRun_continues _ _ (by decide)).1,
   ((mainRun_continues ["a.shp".data] (fun _ => .error "read failed")
      (by decide)).2.2 "a.shp".data (by decide)).1 "read failed" rfl⟩

theorem sortFiles_perm_eq {l₁ l₂ : List FName} (h : l₁.Perm l₂) :
    sortFiles l₁ = sortFiles l₂ :=
  List.eq_of_perm_of_sorted
    (((List.perm_insertionSort _ l₁).trans h).trans
      (List.perm_insertionSort _ l₂).symm)
    (List.sorted_insertionSort _ _) (List.sorted_insertionSort _ _)

/-- Claim C9: the run is a pure function of the discovered set of files
and their contents. Whatever enumeration order the filesystem hands to
rglob, the sort normalises it, so two runs over an unchanged input
directory with the same configuration produce identical logs, exit codes
and serialised outputs. -/
theorem mainRun_deterministic (l₁ l₂ : List FName) (data : ReadOracle)
    (h : l₁.Perm l₂) : mainRun l₁ data = mainRun l₂ data := by
  have hs : sortFiles l₁ = sortFiles l₂ := sortFiles_perm_eq h
  rcases hl : l₁ with _ | ⟨a, t⟩
  · subst hl
    have : l₂ = [] := List.Perm.eq_nil h.symm
    rw [this]
  · subst hl
    have hl₂ : l₂ ≠ [] := by
      intro h2
      rw [h2] at h
      exact absurd (List.Perm.eq_nil h) (by simp)
    have h₂ : l₂.isEmpty = false := by simpa [List.isEmpty_iff] using hl₂
    simp [mainRun, h₂, hs]

/-- Concrete instantiation of claim C9: the same two files in either
discovery order give the same run. -/
theorem mainRun_deterministic_spot :
    mainRun ["b.shp".data, "a.shp".data] (fun _ => .ok []) =
      mainRun ["a.shp".data, "b.shp".data] (fun _ => .ok []) :=
  mainRun_deterministic _ _ _ (by decide)

/-- Counterexample to the distinctness clause of claim C8: two distinct
input paths in different directories but with the same basename map to
the same output path, so one output overwrites the other. -/
theorem outPath_not_injective :
    outPath "a/x.shp".data = outPath "b/x.shp".data ∧
      "a/x.shp".data ≠ "b/x.shp".data := by decide

theorem withSuffixEmpty_shp (s : FName) (hs : s ≠ []) :
    withSuffixEmpty (s ++ ".shp".data) = s := by
  have hrev : (s ++ ".shp".data).reverse = 'p' :: 'h' :: 's' :: '.' :: s.reverse := by
    simp [List.reverse_append]
  have ht : ('p' :: 'h' :: 's' :: '.' :: s.reverse).takeWhile (fun c => c != '.') =
      ['p', 'h', 's'] := rfl
  have hsr : s.reverse.isEmpty = false := by
    simpa [List.isEmpty_iff] using hs
  unfold withSuffixEmpty
  rw [hrev, ht]
  simp [hsr]

theorem runFiles_outputs (data : ReadOracle) : ∀ l : List FName,
    (runFiles data l).2 = l.filterMap (fun p => (processFull data p).toOption)
  | [] => rfl
  | p :: rest => by
      cases hq : processFull data p <;>
        simp [runFiles, hq, runFiles_outputs data rest, Except.toOption]

/-- Claim C8 amended: every input whose basename is s.shp (s nonempty)
maps to the one output path geojson slash s.3d.geojson, the last
extension replaced by the fixed double suffix; each successfully
processed file contributes exactly one output entry, in order, and a
failing file contributes none; distinct inputs sharing a basename
collide on the same output path (see the counterexample), so inputs are
not always mapped to distinct outputs. -/
theorem output_naming :
    (∀ (p : FName) (s : FName), s ≠ [] → basename p = s ++ ".shp".data →
      outPath p = "geojson/".data ++ s ++ ".3d.geojson".data) ∧
      (∀ (data : ReadOracle) (l : List FName),
        (runFiles data l).2 = l.filterMap (fun p => (processFull data p).toOption)) := by
  constructor
  · intro p s hs hb
    simp [outPath, outName, hb, withSuffixEmpty_shp s hs, OUTPUT_DIR]
  · exact runFiles_outputs

/-- Concrete instantiation of claim C8 on a typical dataset filename. -/
theorem output_naming_spot :
    outPath "shape/ShinjukuTerminal_0_Floor.shp".data =
      "geojson/ShinjukuTerminal_0_Floor.3d.geojson".data := by
  have h := output_naming.1 "shape/ShinjukuTerminal_0_Floor.shp".data
    "ShinjukuTerminal_0_Floor".data (by decide) (by decide)
  simpa using h
